import Mathlib

/-!
Verification of the Juno JSON-RPC subscription engine, middleware chain and
HTTP transport adapter against their natural-language specification.

The definitions below are a shallow embedding of the Go source:
* `rpc/v8/subscriptions.go` — the subscription engine (subscribe handlers,
  `resolveBlockRange`, `sendEvents`, `Unsubscribe`);
* `jsonrpc` server middleware (`WithRequestMiddleware`,
  `MetricsReporterMiddleware`);
* the HTTP adapter (`ServeHTTP`, `MaxRequestBodySize`).

Go machine integers (`uint64`, `int`) are modelled as `Nat` (all the code
paths embedded here are guarded against underflow exactly where the source
is), fallible calls return `Except`, and the effectful parts (the
subscription registry, the goroutine wait-groups, the metrics reporter) are
modelled by explicit state passing.
-/

namespace Juno

/-- A Starknet field element (`felt.Felt`), modelled as its value. -/
abbrev Felt := Nat

/-- The RPC error values from `rpccore` and `jsonrpc` that the embedded code
paths can produce, modelled as tags (`code`/`message` payloads are not
inspected by any of the embedded code). -/
inductive RpcError where
  | methodNotFound
  | tooManyKeysInFilter
  | tooManyAddressesInFilter
  | tooManyBlocksBack
  | invalidSubscriptionID
  | txnHashNotFound
  | blockNotFound
  | internal
  deriving DecidableEq, Repr

/-- A block header (`core.Header`); only the block number is read by the
embedded code. -/
structure Header where
  number : Nat
  deriving DecidableEq, Repr

/-- Model of `SubscriptionBlockID`: same as `BlockID` but without `pending`. -/
structure SubscriptionBlockID where
  latest : Bool
  hash : Option Felt
  number : Nat
  deriving DecidableEq, Repr

/-- Model of `SubscriptionBlockID.IsLatest`. -/
def SubscriptionBlockID.isLatest (b : SubscriptionBlockID) : Bool :=
  b.latest

/-- Model of `SubscriptionBlockID.IsPending`: subscription blocks can't be pending. -/
def SubscriptionBlockID.isPending (_ : SubscriptionBlockID) : Bool :=
  false

/-- Model of `SubscriptionBlockID.GetHash`. -/
def SubscriptionBlockID.getHash (b : SubscriptionBlockID) : Option Felt :=
  b.hash

/-- Model of `SubscriptionBlockID.GetNumber`. -/
def SubscriptionBlockID.getNumber (b : SubscriptionBlockID) : Nat :=
  b.number

/-- An entry of the handler's subscription registry (`subscription` struct):
the owning connection, modelled by a connection identifier. The `cancel`
handle and the wait-group are modelled in `EngineState`. -/
structure Subscription where
  conn : Nat
  deriving DecidableEq, Repr

/-- The mutable state of the subscription engine:
* `registry` — `h.subscriptions`, a map from subscription id to entry;
* `runningTasks` — the ids whose background task (spawned on `sub.wg.Go`)
  has not finished yet, one list element per live task;
* `cancelled` — ids whose subscription context has been cancelled;
* `nextId` — the injectable id generator `h.idgen`, modelled as a counter. -/
structure EngineState where
  registry : List (Nat × Subscription)
  runningTasks : List Nat
  cancelled : List Nat
  nextId : Nat
  deriving DecidableEq, Repr

/-- Model of `h.subscriptions.Load id`. -/
def lookupSub (reg : List (Nat × Subscription)) (id : Nat) : Option Subscription :=
  (reg.find? (fun p => p.1 == id)).map (fun p => p.2)

/-- The common registration step of every subscribe handler: generate a fresh
id with `h.idgen`, `Store` the subscription keyed by it, and spawn the
background task on the subscription's wait-group. -/
def storeSubscription (st : EngineState) (w : Nat) : Nat × EngineState :=
  (st.nextId,
   { st with
       registry := (st.nextId, ⟨w⟩) :: st.registry,
       runningTasks := st.nextId :: st.runningTasks,
       nextId := st.nextId + 1 })

/-- Model of `resolveBlockRange`: returns the start and latest headers based on the
block id. `headsHeader` is the result of `h.bcReader.HeadsHeader()`, and
`blockHeaderByID` resolves a non-latest block id to its header (the helper
lives outside the subscription file; its result is passed in as a function).
`none` for `id` models a nil `BlockIdentifier` (`utils.IsNil`). -/
def resolveBlockRange (maxBlocksBack : Nat) (headsHeader : Except String Header)
    (blockHeaderByID : SubscriptionBlockID → Except RpcError Header)
    (id : Option SubscriptionBlockID) : Except RpcError (Header × Header) :=
  match headsHeader with
  | .error _ => .error .internal
  | .ok latestHeader =>
    match id with
    | none => .ok (latestHeader, latestHeader)
    | some bid =>
      if bid.isLatest then
        .ok (latestHeader, latestHeader)
      else
        match blockHeaderByID bid with
        | .error rpcErr => .error rpcErr
        | .ok startHeader =>
          if maxBlocksBack ≤ latestHeader.number ∧
              startHeader.number ≤ latestHeader.number - maxBlocksBack then
            .error .tooManyBlocksBack
          else
            .ok (startHeader, latestHeader)

/-- Model of `SubscribeNewHeads`: requires a connection handle from the request
context (`conn`), resolves the block range, then registers the subscription
and spawns its background task. Returns the fresh subscription id. -/
def SubscribeNewHeads (maxBlocksBack : Nat) (headsHeader : Except String Header)
    (blockHeaderByID : SubscriptionBlockID → Except RpcError Header)
    (conn : Option Nat) (blockID : Option SubscriptionBlockID)
    (st : EngineState) : Except RpcError Nat × EngineState :=
  match conn with
  | none => (.error .methodNotFound, st)
  | some w =>
    match resolveBlockRange maxBlocksBack headsHeader blockHeaderByID blockID with
    | .error rpcErr => (.error rpcErr, st)
    | .ok _ =>
      let (id, st') := storeSubscription st w
      (.ok id, st')

/-- Model of `SubscribeEvents`: requires a connection handle, counts the key filter as
`len(keys)` plus the length of every inner list, rejects when the count
exceeds `maxEventFilterKeys`, then resolves the block range and registers the
subscription. -/
def SubscribeEvents (maxEventFilterKeys maxBlocksBack : Nat)
    (headsHeader : Except String Header)
    (blockHeaderByID : SubscriptionBlockID → Except RpcError Header)
    (conn : Option Nat) (_fromAddr : Option Felt) (keys : List (List Felt))
    (blockID : Option SubscriptionBlockID)
    (st : EngineState) : Except RpcError Nat × EngineState :=
  match conn with
  | none => (.error .methodNotFound, st)
  | some w =>
    let lenKeys := keys.length + (keys.map List.length).sum
    if maxEventFilterKeys < lenKeys then
      (.error .tooManyKeysInFilter, st)
    else
      match resolveBlockRange maxBlocksBack headsHeader blockHeaderByID blockID with
      | .error rpcErr => (.error rpcErr, st)
      | .ok _ =>
        let (id, st') := storeSubscription st w
        (.ok id, st')

/-- Model of `Unsubscribe`: requires a connection handle; looks the id up in the
registry, rejecting with `invalid subscription id` when absent or when the
calling connection is not the owner; otherwise cancels the subscription
context, waits for the wait-group (so all of the subscription's background
tasks are finished when it returns), deletes the registry entry and returns
`true`. -/
def Unsubscribe (conn : Option Nat) (id : Nat) (st : EngineState) :
    Except RpcError Bool × EngineState :=
  match conn with
  | none => (.error .methodNotFound, st)
  | some w =>
    match lookupSub st.registry id with
    | none => (.error .invalidSubscriptionID, st)
    | some sub =>
      if sub.conn == w then
        (.ok true,
         { st with
             cancelled := id :: st.cancelled,
             runningTasks := st.runningTasks.filter (fun t => t != id),
             registry := st.registry.filter (fun p => p.1 != id) })
      else
        (.error .invalidSubscriptionID, st)

/-- A filtered event as produced by the blockchain event filter
(`blockchain.FilteredEvent`): the event payload plus its position
(transaction hash, event index) and the block it came from. A `none` block
hash marks an event from a pending block. -/
structure FilteredEvent where
  transactionHash : Felt
  eventIndex : Nat
  blockHash : Option Felt
  blockNumber : Nat
  fromAddr : Felt
  keys : List Felt
  data : List Felt
  deriving DecidableEq, Repr

/-- Model of `SentEvent`: the identity `(transaction hash, event index)` used to
deduplicate pending-vs-confirmed emissions. -/
structure SentEvent where
  transactionHash : Felt
  eventIndex : Nat
  deriving DecidableEq, Repr

/-- The `SentEvent` key of a filtered event. -/
def FilteredEvent.sentKey (e : FilteredEvent) : SentEvent :=
  ⟨e.transactionHash, e.eventIndex⟩

/-- Model of `sendEvents`: walks the filtered events in order; for each one, when the
context is cancelled it stops with the context error, otherwise (when a
`SentEvent` map was supplied — the historical catch-up call passes `nil`,
modelled as `none`) it skips an event whose key is already present, records
the key when the block hash is nil (pending) and deletes it when the block
hash is non-nil (confirmed), and then emits the event. Writes to the
connection are assumed to succeed; the second component of the result is the
list of emitted events, in emission order. -/
def sendEvents (cancelled : Bool) (events : List FilteredEvent)
    (prev : Option (List SentEvent)) :
    Except Unit (Option (List SentEvent) × List FilteredEvent) :=
  match events with
  | [] => .ok (prev, [])
  | e :: rest =>
    if cancelled then
      .error ()
    else
      match prev with
      | none =>
        match sendEvents cancelled rest none with
        | .error u => .error u
        | .ok (p, emitted) => .ok (p, e :: emitted)
      | some sent =>
        if e.sentKey ∈ sent then
          sendEvents cancelled rest (some sent)
        else
          let sent' :=
            if e.blockHash = none then
              e.sentKey :: sent
            else
              sent.filter (fun k => k ≠ e.sentKey)
          match sendEvents cancelled rest (some sent') with
          | .error u => .error u
          | .ok (p, emitted) => .ok (p, e :: emitted)

/-- The emitted-event list of a `sendEvents` result (empty on error). -/
def emittedOf (r : Except Unit (Option (List SentEvent) × List FilteredEvent)) :
    List FilteredEvent :=
  match r with
  | .error _ => []
  | .ok (_, emitted) => emitted

/-- The `SentEvent` map of a `sendEvents` result (`none` on error or when no
map was supplied). -/
def sentMapOf (r : Except Unit (Option (List SentEvent) × List FilteredEvent)) :
    Option (List SentEvent) :=
  match r with
  | .error _ => none
  | .ok (p, _) => p

/-- A transaction status as returned by `h.TransactionStatus`; only the
finality ladder matters to the embedded code. -/
inductive TxnStatus where
  | received
  | rejected
  | acceptedOnL2
  | acceptedOnL1
  deriving DecidableEq, Repr

/-- The `txNotFoundLoop` of `SubscribeTransactionStatus`: poll the status
once per ticker tick until either the status call stops returning
`transaction hash not found`, a different error occurs, or the timeout
fires. `fuel` is the number of ticker ticks that occur before the timeout
timer fires; `statusOf k` is the result of the status lookup at tick `k`. -/
def txNotFoundLoop (statusOf : Nat → Except RpcError TxnStatus) :
    Nat → Nat → Except RpcError TxnStatus
  | 0, _ => .error .txnHashNotFound
  | fuel + 1, tick =>
    match statusOf tick with
    | .ok s => .ok s
    | .error e =>
      if e = .txnHashNotFound then
        txNotFoundLoop statusOf fuel (tick + 1)
      else
        .error e

/-- Model of `SubscribeTransactionStatus`: requires a connection handle; fetches the
current status (`statusOf 0`); when it is `transaction hash not found`,
enters the ticker/timeout wait loop; when the wait window elapses without
the transaction appearing, returns the error synchronously. Only once a
status is obtained does it generate an id and register the subscription. -/
def SubscribeTransactionStatus (fuel : Nat)
    (statusOf : Nat → Except RpcError TxnStatus)
    (conn : Option Nat) (st : EngineState) : Except RpcError Nat × EngineState :=
  match conn with
  | none => (.error .methodNotFound, st)
  | some w =>
    let first : Except RpcError TxnStatus :=
      match statusOf 0 with
      | .ok s => .ok s
      | .error e =>
        if e = .txnHashNotFound then
          txNotFoundLoop statusOf fuel 1
        else
          .error e
    match first with
    | .error e => (.error e, st)
    | .ok _ =>
      let (id, st') := storeSubscription st w
      (.ok id, st')

/-- A JSON-RPC request, as far as the middleware reads it. -/
structure Request where
  method : String
  deriving DecidableEq, Repr

/-- The error object of a JSON-RPC response (`resp.Error`). -/
structure ErrorObj where
  code : Int
  deriving DecidableEq, Repr

/-- A JSON-RPC response, as far as the middleware reads it. -/
structure Response where
  error : Option ErrorObj
  deriving DecidableEq, Repr

/-- The state of a `requestReporter` implementation, mirroring the effects
of its three methods: `method`/`count` record `ReportRequest` calls,
`durationReports` counts `ReportRequestDuration` calls (the wall-clock value
itself is real time and not modelled), `errCode` records the last
`ReportRequestError`. -/
structure Reporter where
  method : String
  count : Nat
  durationReports : Nat
  errCode : Int
  deriving DecidableEq, Repr

/-- Model of `requestHandler`: takes the request, returns `(*response, error)`; the
reporter state is threaded explicitly. -/
abbrev RequestHandler : Type :=
  Request → Reporter → (Option Response × Option String) × Reporter

/-- Model of `requestMiddleware`: a middleware between the request and the next
`requestHandler`; the middleware needs to call the next handler. -/
abbrev RequestMiddleware : Type :=
  Request → RequestHandler → Reporter → (Option Response × Option String) × Reporter

/-- Model of `MetricsReporterMiddleware`: calls the next handler, then reports
`ReportRequest` and `ReportRequestDuration`, and `ReportRequestError` iff
the response is non-nil and carries an error. -/
def MetricsReporterMiddleware : RequestMiddleware :=
  fun req next r =>
    let res := next req r
    let r1 := res.2
    let r2 := { r1 with method := req.method, count := r1.count + 1 }
    let r3 := { r2 with durationReports := r2.durationReports + 1 }
    let r4 :=
      match res.1.1 with
      | some resp =>
        match resp.error with
        | some errObj => { r3 with errCode := errObj.code }
        | none => r3
      | none => r3
    (res.1, r4)

/-- The jsonrpc `Server`, as far as middleware registration reads it:
`handler` is the chained handler of record (nil before any middleware is
registered) and `handleRequest` is the terminal dispatcher. -/
structure Server where
  handler : Option RequestHandler
  handleRequest : RequestHandler

/-- Model of `NewServer`: leaves the middleware chain empty. -/
def newServer (terminal : RequestHandler) : Server :=
  ⟨none, terminal⟩

/-- Model of `WithRequestMiddleware`: registers a request middleware; the new handler
runs the middleware with the previously chained handler (or the terminal
dispatcher when none was registered yet) as `next`. -/
def Server.withRequestMiddleware (s : Server) (middleware : RequestMiddleware) :
    Server :=
  let handler :=
    match s.handler with
    | none => s.handleRequest
    | some h => h
  { s with handler := some (fun req r => middleware req handler r) }

/-- The handler the server dispatches through: the chained handler when
middlewares were registered, the terminal dispatcher otherwise. -/
def Server.effectiveHandler (s : Server) : RequestHandler :=
  match s.handler with
  | none => s.handleRequest
  | some h => h

/-- Model of `MaxRequestBodySize`: 10 MiB. -/
def maxRequestBodySize : Nat := 10 * 1024 * 1024

/-- An HTTP request as the adapter reads it: method, URL path and body
bytes. -/
structure HttpRequest where
  method : String
  path : String
  body : List Nat
  deriving DecidableEq, Repr

/-- The observable effects of one `ServeHTTP` call on the response writer:
the status code, whether the JSON content type header was set, and the bytes
written (if any). -/
structure HttpResult where
  status : Nat
  contentTypeJson : Bool
  written : Option (List Nat)
  deriving DecidableEq, Repr

/-- Model of `ServeHTTP`: GET answers the liveness probe (200 on `/`, 404 elsewhere)
without touching the body; any method other than GET or POST answers 405; a
POST body is capped at `maxRequestBodySize` (`http.MaxBytesReader`) before
`HandleReader` sees it, the content type is set, a core error maps to
status 500, and the core's response bytes (when non-nil) are written either
way. `handleReader` returns the response bytes and whether the core
returned an error. -/
def serveHTTP (handleReader : List Nat → Option (List Nat) × Bool)
    (req : HttpRequest) : HttpResult :=
  if req.method = "GET" then
    { status := if req.path = "/" then 200 else 404,
      contentTypeJson := false, written := none }
  else if req.method ≠ "POST" then
    { status := 405, contentTypeJson := false, written := none }
  else
    let res := handleReader (req.body.take maxRequestBodySize)
    { status := if res.2 then 500 else 200,
      contentTypeJson := true, written := res.1 }

/-- A parsed JSON value (what `encoding/json` would decode the raw request
bytes into). -/
inductive Json where
  | null
  | bool (b : Bool)
  | num (n : Int)
  | str (s : String)
  | arr (elements : List Json)
  | obj (fields : List (String × Json))

/-- Whether the raw input is exactly the string `"latest"`
(`string(data) == "latest"` on the raw bytes). -/
def isLatestLiteral : Json → Bool
  | .str s => s = "latest"
  | _ => false

/-- Model of `json.Unmarshal(data, &map[string]json.RawMessage)`: succeeds on a JSON
object (and on `null`, which leaves the map empty); fails on every other
JSON value. -/
def toObject : Json → Except String (List (String × Json))
  | .null => .ok []
  | .obj fields => .ok fields
  | _ => .error "cannot unmarshal into map"

/-- Go map indexing on the decoded object: with duplicate keys the later
occurrence wins. -/
def getField (fields : List (String × Json)) (key : String) : Option Json :=
  match fields with
  | [] => none
  | (k, v) :: rest =>
    match getField rest key with
    | some r => some r
    | none => if k = key then some v else none

/-- Model of `json.Unmarshal` into a `uint64`. -/
def parseUint64 : Json → Except String Nat
  | .num n =>
    if 0 ≤ n ∧ n < (2 : Int) ^ 64 then
      .ok n.toNat
    else
      .error "cannot unmarshal number into uint64"
  | _ => .error "cannot unmarshal into uint64"

/-- Model of `SubscriptionBlockID.UnmarshalJSON`: the exact string `"latest"` sets
the latest flag; otherwise the input must decode into an object, whose
`block_hash` field (when present) is decoded as a felt (`parseFelt` stands
for `felt.Felt.UnmarshalJSON`, which lives outside the subscription file),
else whose `block_number` field (when present) is decoded as a `uint64`;
with neither field the error is `cannot unmarshal block id`. -/
def SubscriptionBlockID.unmarshalJSON (parseFelt : Json → Except String Felt)
    (j : Json) : Except String SubscriptionBlockID :=
  if isLatestLiteral j then
    .ok { latest := true, hash := none, number := 0 }
  else
    match toObject j with
    | .error e => .error e
    | .ok fields =>
      match getField fields "block_hash" with
      | some hj =>
        match parseFelt hj with
        | .ok f => .ok { latest := false, hash := some f, number := 0 }
        | .error e => .error e
      | none =>
        match getField fields "block_number" with
        | some nj =>
          match parseUint64 nj with
          | .ok n => .ok { latest := false, hash := none, number := n }
          | .error e => .error e
        | none => .error "cannot unmarshal block id"

/-- A point in an execution of the engine: the engine state together with
the log of notifications written so far, newest first; a log entry is the
pair (subscription id, payload) of one `sendResponse` call. -/
def EngineTrace : Type :=
  EngineState × List (Nat × Nat)

/-- One interleaving step of the engine after some call returned:
* `emit` — a background task of a live subscription writes a notification
  (every notification write happens inside a task tracked by the
  subscription's wait-group);
* `taskExit` — a background task finishes;
* `newSub` — some subscribe handler registers a fresh subscription
  (`h.idgen` plus `Store` plus `wg.Go`);
* `unsub` — an `Unsubscribe` call is executed. -/
inductive EngineStep : EngineTrace → EngineTrace → Prop where
  | emit (st : EngineState) (log : List (Nat × Nat)) (id payload : Nat)
      (hmem : id ∈ st.runningTasks) :
      EngineStep (st, log) (st, (id, payload) :: log)
  | taskExit (st : EngineState) (log : List (Nat × Nat)) (id : Nat) :
      EngineStep (st, log)
        ({ st with runningTasks := st.runningTasks.erase id }, log)
  | newSub (st : EngineState) (log : List (Nat × Nat)) (w : Nat) :
      EngineStep (st, log) ((storeSubscription st w).2, log)
  | unsub (st : EngineState) (log : List (Nat × Nat)) (conn : Option Nat)
      (id : Nat) :
      EngineStep (st, log) ((Unsubscribe conn id st).2, log)

/-- Finitely many engine steps (reflexive transitive closure). -/
inductive EngineSteps : EngineTrace → EngineTrace → Prop where
  | refl (a : EngineTrace) : EngineSteps a a
  | tail (a b c : EngineTrace) : EngineSteps a b → EngineStep b c →
      EngineSteps a c

/-- Id generator freshness: every registered subscription id was produced by
the id counter. This holds for every state the engine actually reaches,
because ids are only ever drawn from the counter. -/
def idsFresh (st : EngineState) : Prop :=
  ∀ p ∈ st.registry, p.1 < st.nextId

/-- The id `id` is gone: the counter has moved past it and no background task of
it is running, so it can neither emit nor be re-issued. -/
def taskFree (id : Nat) (st : EngineState) : Prop :=
  id < st.nextId ∧ id ∉ st.runningTasks

/-! ## Theorems -/

/-- Helper: `resolveBlockRange` never produces the too-many-keys error, provided the
block header lookup it delegates to does not. -/
theorem resolveBlockRange_ne_keys_error (maxBack : Nat)
    (hh : Except String Header)
    (hb : SubscriptionBlockID → Except RpcError Header)
    (bid : Option SubscriptionBlockID)
    (h : ∀ b, hb b ≠ .error .tooManyKeysInFilter) :
    resolveBlockRange maxBack hh hb bid ≠ .error .tooManyKeysInFilter := by
  unfold resolveBlockRange
  split
  · simp
  · split
    · simp
    · split
      · simp
      · split
        · next rpcErr heq =>
          intro hc
          injection hc with hc'
          exact h _ (heq.trans (by rw [hc']))
        · split <;> simp

/-- C1 (counterexample): with `MaxEventFilterKeys = 1` and `keys = [[0]]`
the sum of key-filter entries across the inner lists is `1`, which does not
exceed the limit, yet `SubscribeEvents` returns the too-many-keys error
(the code also counts the number of inner lists), so the claimed equivalence
fails at this input. -/
theorem subscribeEvents_sum_only_refuted :
    ¬ (((SubscribeEvents 1 1024 (.ok ⟨0⟩) (fun _ => .error .blockNotFound)
          (some 0) none [[0]] none ⟨[], [], [], 0⟩).1
            = .error .tooManyKeysInFilter)
        ↔ 1 < (([[0]] : List (List Felt)).map List.length).sum) := by
  intro h
  have hv := h.mp rfl
  simp at hv

/-- C1 (amended): for every `SubscribeEvents` call carrying a connection,
the too-many-keys error is returned if and only if the number of inner key
lists plus the sum of key-filter entries across the inner lists exceeds
`MaxEventFilterKeys`; otherwise the key validation passes. (The block
header lookup is assumed not to produce that error, as in the source.) -/
theorem subscribeEvents_key_count (maxKeys maxBack : Nat)
    (headsHeader : Except String Header)
    (blockHeaderByID : SubscriptionBlockID → Except RpcError Header)
    (w : Nat) (fromAddr : Option Felt) (keys : List (List Felt))
    (blockID : Option SubscriptionBlockID) (st : EngineState)
    (hb : ∀ b, blockHeaderByID b ≠ .error .tooManyKeysInFilter) :
    (SubscribeEvents maxKeys maxBack headsHeader blockHeaderByID (some w)
        fromAddr keys blockID st).1 = .error .tooManyKeysInFilter
      ↔ maxKeys < keys.length + (keys.map List.length).sum := by
  by_cases hk : maxKeys < keys.length + (keys.map List.length).sum
  · simp [SubscribeEvents, hk]
  · rcases hr : resolveBlockRange maxBack headsHeader blockHeaderByID blockID
      with e | pr
    · have hne := resolveBlockRange_ne_keys_error maxBack headsHeader
        blockHeaderByID blockID hb
      rw [hr] at hne
      have he : e ≠ .tooManyKeysInFilter := fun hc => hne (by rw [hc])
      simp only [SubscribeEvents, hr, if_neg hk]
      constructor
      · intro hc
        injection hc with hc'
        exact absurd hc' he
      · intro hc
        exact absurd hc hk
    · simp only [SubscribeEvents, hr, if_neg hk]
      constructor
      · intro hc
        exact absurd hc (by simp)
      · intro hc
        exact absurd hc hk

/-- C1 (witness): the amended equivalence evaluated at a concrete call:
two inner lists of one key each under a limit of `4` pass the validation. -/
theorem subscribeEvents_key_count_witness :
    ¬ ((SubscribeEvents 4 1024 (.ok ⟨0⟩) (fun _ => .error .blockNotFound)
        (some 0) none [[2], [3]] none ⟨[], [], [], 0⟩).1
          = .error .tooManyKeysInFilter) := by
  have h := subscribeEvents_key_count 4 1024 (.ok ⟨0⟩)
    (fun _ => .error .blockNotFound) 0 none [[2], [3]] none ⟨[], [], [], 0⟩
    (fun _ => by simp)
  intro hc
  have := h.mp hc
  simp at this

/-- C2 (counterexample): with `MaxBlocksBack = 5`, head number `10` and a
starting block resolving to number `5`, the starting block is exactly
`head - MaxBlocksBack` — not older than it — yet `resolveBlockRange`
rejects with `too many blocks back`, so the claimed equivalence fails at
this input. -/
theorem resolveBlockRange_boundary_refuted :
    ¬ ((resolveBlockRange 5 (.ok ⟨10⟩) (fun _ => .ok ⟨5⟩)
          (some ⟨false, none, 5⟩) = .error .tooManyBlocksBack)
        ↔ 5 < 10 - 5) := by
  intro h
  exact absurd (h.mp rfl) (by decide)

/-- C2 (amended): for a subscribe call whose chain head has number `H` and
whose requested starting block resolves to number `S`, the call is rejected
with `too many blocks back` if and only if `H ≥ MaxBlocksBack` and
`S ≤ H - MaxBlocksBack` (the starting block is `MaxBlocksBack` or more
behind the head); on rejection no subscription is created — the engine
state is unchanged — and otherwise the subscription is registered. -/
theorem resolveBlockRange_blocks_back (maxBack hNum sNum w : Nat)
    (hash : Option Felt) (st : EngineState) :
    ((resolveBlockRange maxBack (.ok ⟨hNum⟩) (fun _ => .ok ⟨sNum⟩)
        (some ⟨false, hash, sNum⟩) = .error .tooManyBlocksBack)
      ↔ (maxBack ≤ hNum ∧ sNum ≤ hNum - maxBack))
    ∧ (SubscribeNewHeads maxBack (.ok ⟨hNum⟩) (fun _ => .ok ⟨sNum⟩) (some w)
        (some ⟨false, hash, sNum⟩) st
      = if maxBack ≤ hNum ∧ sNum ≤ hNum - maxBack then
          (.error .tooManyBlocksBack, st)
        else
          (.ok st.nextId, (storeSubscription st w).2)) := by
  by_cases hcond : maxBack ≤ hNum ∧ sNum ≤ hNum - maxBack
  · simp [resolveBlockRange, SubscribeNewHeads, SubscriptionBlockID.isLatest,
      hcond]
  · simp [resolveBlockRange, SubscribeNewHeads, SubscriptionBlockID.isLatest,
      storeSubscription, hcond]

/-- C3: an `Unsubscribe` call for an id that is absent from the registry, or
that comes from a connection other than the subscription's owner, returns
`invalid subscription id` and leaves the engine state untouched: the
subscription's context is not cancelled, its tasks keep running and its
registry entry is not deleted. -/
theorem unsubscribe_unauthorized (st : EngineState) (w id : Nat)
    (h : lookupSub st.registry id = none ∨
      ∃ sub, lookupSub st.registry id = some sub ∧ sub.conn ≠ w) :
    Unsubscribe (some w) id st = (.error .invalidSubscriptionID, st) := by
  rcases h with hnone | ⟨sub, hsub, hconn⟩
  · simp [Unsubscribe, hnone]
  · simp [Unsubscribe, hsub, hconn]

/-- C3 (witness): connection `5` cannot unsubscribe id `1` owned by
connection `7`; the registry entry and the running task survive. -/
theorem unsubscribe_unauthorized_witness :
    Unsubscribe (some 5) 1 ⟨[(1, ⟨7⟩)], [1], [], 2⟩
      = (.error .invalidSubscriptionID, ⟨[(1, ⟨7⟩)], [1], [], 2⟩) :=
  unsubscribe_unauthorized _ 5 1 (Or.inr ⟨⟨7⟩, rfl, by decide⟩)

/-- Helper: `Unsubscribe` never moves the id counter and never adds running tasks,
whatever its arguments. -/
theorem unsubscribe_state_shape (conn : Option Nat) (i : Nat)
    (st : EngineState) :
    (Unsubscribe conn i st).2.nextId = st.nextId ∧
      ∀ t, t ∈ (Unsubscribe conn i st).2.runningTasks →
        t ∈ st.runningTasks := by
  rcases conn with _ | w
  · exact ⟨rfl, fun t ht => ht⟩
  · rcases hl : lookupSub st.registry i with _ | sub
    · simp [Unsubscribe, hl]
    · by_cases hc : (sub.conn == w) = true
      · have hU : Unsubscribe (some w) i st =
            (.ok true,
             { st with
                 cancelled := i :: st.cancelled,
                 runningTasks := st.runningTasks.filter (fun t => t != i),
                 registry := st.registry.filter (fun p => p.1 != i) }) := by
          simp [Unsubscribe, hl, hc]
        rw [hU]
        exact ⟨rfl, fun t ht => List.mem_of_mem_filter ht⟩
      · simp [Unsubscribe, hl, hc]

/-- A single engine step can neither restart a drained subscription id nor
re-issue it: `taskFree` is preserved. -/
theorem taskFree_step (id : Nat) {a b : EngineTrace} (h : EngineStep a b)
    (hf : taskFree id a.1) : taskFree id b.1 := by
  cases h with
  | emit st log i payload hmem => exact hf
  | taskExit st log i =>
    exact ⟨hf.1, fun hc => hf.2 (List.mem_of_mem_erase hc)⟩
  | newSub st log w =>
    have h1 : id < st.nextId := hf.1
    have h2 : id ∉ st.runningTasks := hf.2
    refine ⟨Nat.lt_succ_of_lt h1, fun hc => ?_⟩
    have hc' : id ∈ st.nextId :: st.runningTasks := hc
    rcases List.mem_cons.mp hc' with hcl | hcr
    · exact absurd hcl (Nat.ne_of_lt h1)
    · exact h2 hcr
  | unsub st log conn i =>
    obtain ⟨hnext, hsub⟩ := unsubscribe_state_shape conn i st
    have h1 : id < st.nextId := hf.1
    have h2 : id ∉ st.runningTasks := hf.2
    refine ⟨show id < (Unsubscribe conn i st).2.nextId from ?_,
      fun hc => h2 (hsub _ hc)⟩
    omega

/-- A single engine step writes no notification for a drained id. -/
theorem log_step (id : Nat) {a b : EngineTrace} (h : EngineStep a b)
    (hf : taskFree id a.1) : ∀ p, (id, p) ∈ b.2 → (id, p) ∈ a.2 := by
  cases h with
  | emit st log i payload hmem =>
    intro p hp
    rcases List.mem_cons.mp hp with h1 | h2
    · injection h1 with h1a h1b
      subst h1a
      exact absurd hmem hf.2
    · exact h2
  | taskExit st log i => exact fun p hp => hp
  | newSub st log w => exact fun p hp => hp
  | unsub st log conn i => exact fun p hp => hp

/-- Over any number of engine steps, a drained id stays drained and no
notification for it is ever appended to the log. -/
theorem taskFree_steps (id : Nat) {a b : EngineTrace} (h : EngineSteps a b)
    (hf : taskFree id a.1) :
    taskFree id b.1 ∧ ∀ p, (id, p) ∈ b.2 → (id, p) ∈ a.2 := by
  induction h with
  | refl => exact ⟨hf, fun p hp => hp⟩
  | tail b c hab hbc ih =>
    obtain ⟨hfb, hlog⟩ := ih
    exact ⟨taskFree_step id hbc hfb,
      fun p hp => hlog p (log_step id hbc hfb p hp)⟩

/-- C4: an `Unsubscribe` call from the owning connection returns `true`,
cancels the subscription's context, finishes with none of its background
tasks running (the wait-group drain), and deletes the registry entry; and
from the resulting state, no execution of the engine ever writes another
notification for that id (ids are generator-fresh, so the id is never
reused). -/
theorem unsubscribe_owner_clean_shutdown (st : EngineState) (w id : Nat)
    (sub : Subscription) (hreg : lookupSub st.registry id = some sub)
    (hconn : sub.conn = w) (hfresh : idsFresh st) :
    (Unsubscribe (some w) id st).1 = .ok true
    ∧ id ∈ (Unsubscribe (some w) id st).2.cancelled
    ∧ lookupSub (Unsubscribe (some w) id st).2.registry id = none
    ∧ id ∉ (Unsubscribe (some w) id st).2.runningTasks
    ∧ ∀ s log, EngineSteps ((Unsubscribe (some w) id st).2, []) (s, log) →
        ∀ p, (id, p) ∉ log := by
  have hcond : (sub.conn == w) = true := by simp [hconn]
  have hUn : Unsubscribe (some w) id st =
      (.ok true,
       { st with
           cancelled := id :: st.cancelled,
           runningTasks := st.runningTasks.filter (fun t => t != id),
           registry := st.registry.filter (fun p => p.1 != id) }) := by
    simp [Unsubscribe, hreg, hcond]
  have hfind : (st.registry.filter (fun p => p.1 != id)).find?
      (fun p => p.1 == id) = none := by
    rw [List.find?_eq_none]
    intro a ha
    have h2 := (List.mem_filter.mp ha).2
    simp only [bne_iff_ne, ne_eq] at h2
    simp [h2]
  have hlookup : lookupSub (st.registry.filter (fun p => p.1 != id)) id
      = none := by
    unfold lookupSub
    rw [hfind]
    rfl
  have hmemT : id ∉ st.runningTasks.filter (fun t => t != id) := by
    intro hc
    have h2 := (List.mem_filter.mp hc).2
    simp at h2
  obtain ⟨p, hp, hps⟩ : ∃ p, st.registry.find? (fun q => q.1 == id) = some p
      ∧ p.2 = sub := by
    unfold lookupSub at hreg
    rcases hfd : st.registry.find? (fun q => q.1 == id) with _ | p
    · rw [hfd] at hreg
      cases hreg
    · rw [hfd] at hreg
      simp only [Option.map_some'] at hreg
      exact ⟨p, hfd, by injection hreg⟩
  have hkey : p.1 = id := by
    have h3 := List.find?_some hp
    simpa using h3
  have hid_lt : id < st.nextId := hkey ▸ hfresh p (List.mem_of_find?_eq_some hp)
  rw [hUn]
  refine ⟨rfl, List.mem_cons_self _ _, hlookup, hmemT, ?_⟩
  intro s log hsteps q hq
  have hfree : taskFree id
      ({ st with
           cancelled := id :: st.cancelled,
           runningTasks := st.runningTasks.filter (fun t => t != id),
           registry := st.registry.filter (fun p => p.1 != id) }) :=
    ⟨hid_lt, hmemT⟩
  have h4 := (taskFree_steps id hsteps hfree).2 q hq
  simp at h4

/-- C4 (witness): owner connection `7` unsubscribes id `1`: the call
returns `true`, cancels the context, drains the task and deletes the
entry. -/
theorem unsubscribe_owner_clean_shutdown_witness :
    (Unsubscribe (some 7) 1 ⟨[(1, ⟨7⟩)], [1], [], 2⟩).1 = .ok true
    ∧ 1 ∈ (Unsubscribe (some 7) 1 ⟨[(1, ⟨7⟩)], [1], [], 2⟩).2.cancelled
    ∧ lookupSub (Unsubscribe (some 7) 1 ⟨[(1, ⟨7⟩)], [1], [], 2⟩).2.registry 1
        = none
    ∧ 1 ∉ (Unsubscribe (some 7) 1 ⟨[(1, ⟨7⟩)], [1], [], 2⟩).2.runningTasks := by
  have h := unsubscribe_owner_clean_shutdown ⟨[(1, ⟨7⟩)], [1], [], 2⟩ 7 1 ⟨7⟩
    rfl rfl (by unfold idsFresh; decide)
  exact ⟨h.1, h.2.1, h.2.2.1, h.2.2.2.1⟩

/-- Helper: `sendEvents` with a live map skips an event whose key was already
recorded: nothing is emitted for it and the map is unchanged. -/
theorem sendEvents_skip (e : FilteredEvent) (rest : List FilteredEvent)
    (s : List SentEvent) (h : e.sentKey ∈ s) :
    sendEvents false (e :: rest) (some s) = sendEvents false rest (some s) := by
  simp [sendEvents, h]

/-- Helper: `sendEvents` records the key of a not-yet-seen pending event (nil block
hash) and emits the event. -/
theorem sendEvents_record_pending (e : FilteredEvent)
    (rest : List FilteredEvent) (s : List SentEvent)
    (h : e.sentKey ∉ s) (hb : e.blockHash = none) :
    sendEvents false (e :: rest) (some s) =
      (match sendEvents false rest (some (e.sentKey :: s)) with
       | .error u => .error u
       | .ok (p, em) => .ok (p, e :: em)) := by
  simp [sendEvents, h, hb]

/-- Helper: `sendEvents` deletes the key of a not-yet-seen confirmed event (non-nil
block hash) from the map and emits the event. -/
theorem sendEvents_delete_confirmed (e : FilteredEvent)
    (rest : List FilteredEvent) (s : List SentEvent) (bh : Felt)
    (h : e.sentKey ∉ s) (hb : e.blockHash = some bh) :
    sendEvents false (e :: rest) (some s) =
      (match sendEvents false rest
          (some (s.filter (fun x => x ≠ e.sentKey))) with
       | .error u => .error u
       | .ok (p, em) => .ok (p, e :: em)) := by
  simp [sendEvents, h, hb]

/-- Processing events none of which carries the key `k` succeeds, preserves
whether `k` is in the map, and emits no event with key `k`. -/
theorem sendEvents_other_keys (k : SentEvent) (l : List FilteredEvent) :
    ∀ s : List SentEvent, (∀ e ∈ l, e.sentKey ≠ k) →
      ∃ s' em, sendEvents false l (some s) = .ok (some s', em)
        ∧ (k ∈ s' ↔ k ∈ s) ∧ ∀ e ∈ em, e.sentKey ≠ k := by
  induction l with
  | nil =>
    intro s _
    exact ⟨s, [], rfl, Iff.rfl, by simp⟩
  | cons e rest ih =>
    intro s hl
    have he : e.sentKey ≠ k := hl e (List.mem_cons_self e rest)
    have hrest : ∀ e' ∈ rest, e'.sentKey ≠ k :=
      fun e' h' => hl e' (List.mem_cons_of_mem e h')
    by_cases hm : e.sentKey ∈ s
    · obtain ⟨s', em, heq, hiff, hem⟩ := ih s hrest
      exact ⟨s', em, (sendEvents_skip e rest s hm).trans heq, hiff, hem⟩
    · rcases hbh : e.blockHash with _ | bh
      · obtain ⟨s', em, heq, hiff, hem⟩ := ih (e.sentKey :: s) hrest
        refine ⟨s', e :: em, ?_, ?_, ?_⟩
        · rw [sendEvents_record_pending e rest s hm hbh, heq]
        · rw [hiff, List.mem_cons]
          constructor
          · rintro (hck | hcs)
            · exact absurd hck.symm he
            · exact hcs
          · exact fun hcs => Or.inr hcs
        · intro e' he'
          rcases List.mem_cons.mp he' with h1 | h2
          · rw [h1]; exact he
          · exact hem e' h2
      · obtain ⟨s', em, heq, hiff, hem⟩ :=
          ih (s.filter (fun x => x ≠ e.sentKey)) hrest
        refine ⟨s', e :: em, ?_, ?_, ?_⟩
        · rw [sendEvents_delete_confirmed e rest s bh hm hbh, heq]
        · rw [hiff, List.mem_filter]
          constructor
          · rintro ⟨hcs, _⟩
            exact hcs
          · intro hcs
            refine ⟨hcs, ?_⟩
            simp [Ne.symm he]
        · intro e' he'
          rcases List.mem_cons.mp he' with h1 | h2
          · rw [h1]; exact he
          · exact hem e' h2

/-- Decomposition of one `sendEvents` call over an append: processing
`l1 ++ l2` with a live map is processing `l1`, then processing `l2` with
the map it left behind, concatenating the emissions. -/
theorem sendEvents_append (l1 : List FilteredEvent) :
    ∀ (l2 : List FilteredEvent) (s s1 : List SentEvent)
      (em1 : List FilteredEvent),
      sendEvents false l1 (some s) = .ok (some s1, em1) →
      sendEvents false (l1 ++ l2) (some s) =
        (match sendEvents false l2 (some s1) with
         | .error u => .error u
         | .ok (p, em2) => .ok (p, em1 ++ em2)) := by
  induction l1 with
  | nil =>
    intro l2 s s1 em1 h
    injection h with h'
    injection h' with hs hem
    injection hs with hs'
    subst hs'
    subst hem
    simp only [List.nil_append]
    rcases hr : sendEvents false l2 (some s) with u | ⟨p, em2⟩
    · rfl
    · simp
  | cons e rest ih =>
    intro l2 s s1 em1 h
    by_cases hm : e.sentKey ∈ s
    · rw [sendEvents_skip e rest s hm] at h
      rw [show (e :: rest) ++ l2 = e :: (rest ++ l2) from rfl,
        sendEvents_skip e (rest ++ l2) s hm]
      exact ih l2 s s1 em1 h
    · rcases hbh : e.blockHash with _ | bh
      · rw [sendEvents_record_pending e rest s hm hbh] at h
        rcases hr : sendEvents false rest (some (e.sentKey :: s))
            with u | ⟨p, em⟩
        · rw [hr] at h
          cases h
        · rw [hr] at h
          injection h with h'
          injection h' with hs hem
          subst hs
          subst hem
          rw [show (e :: rest) ++ l2 = e :: (rest ++ l2) from rfl,
            sendEvents_record_pending e (rest ++ l2) s hm hbh,
            ih l2 (e.sentKey :: s) s1 em hr]
          rcases sendEvents false l2 (some s1) with u | ⟨q, em2⟩
          · rfl
          · simp
      · rw [sendEvents_delete_confirmed e rest s bh hm hbh] at h
        rcases hr : sendEvents false rest
            (some (s.filter (fun x => x ≠ e.sentKey))) with u | ⟨p, em⟩
        · rw [hr] at h
          cases h
        · rw [hr] at h
          injection h with h'
          injection h' with hs hem
          subst hs
          subst hem
          rw [show (e :: rest) ++ l2 = e :: (rest ++ l2) from rfl,
            sendEvents_delete_confirmed e (rest ++ l2) s bh hm hbh,
            ih l2 (s.filter (fun x => x ≠ e.sentKey)) s1 em hr]
          rcases sendEvents false l2 (some s1) with u | ⟨q, em2⟩
          · rfl
          · simp

/-- A list with no event of key `k` filters to nothing at key `k`. -/
theorem filter_key_eq_nil (k : SentEvent) (l : List FilteredEvent)
    (h : ∀ e ∈ l, e.sentKey ≠ k) :
    l.filter (fun e => e.sentKey = k) = [] := by
  rw [List.filter_eq_nil_iff]
  intro e he
  simp [h e he]

/-- C5: a pending-then-confirmed event is notified exactly once. The event
`e1` arrives in a pending replay (nil block hash) among other-keyed events
`l1, l2`; the same identity arrives again as `e2` in a confirmed replay
(non-nil block hash) among other-keyed events `l3, l4`, the `SentEvent` map
being threaded from the first call to the second. The first call emits it
exactly once (recording the key); the second call skips it (the key is
present) and emits it zero times. -/
theorem sendEvents_pending_then_confirmed (e1 e2 : FilteredEvent)
    (l1 l2 l3 l4 : List FilteredEvent) (s0 : List SentEvent) (bh : Felt)
    (hkey : e2.sentKey = e1.sentKey)
    (hp : e1.blockHash = none) (_hc : e2.blockHash = some bh)
    (hs0 : e1.sentKey ∉ s0)
    (h1 : ∀ e ∈ l1, e.sentKey ≠ e1.sentKey)
    (h2 : ∀ e ∈ l2, e.sentKey ≠ e1.sentKey)
    (h3 : ∀ e ∈ l3, e.sentKey ≠ e1.sentKey)
    (h4 : ∀ e ∈ l4, e.sentKey ≠ e1.sentKey) :
    ((emittedOf (sendEvents false (l1 ++ e1 :: l2) (some s0))).filter
        (fun e => e.sentKey = e1.sentKey)).length = 1
    ∧ ((emittedOf (sendEvents false (l3 ++ e2 :: l4)
          (sentMapOf (sendEvents false (l1 ++ e1 :: l2) (some s0))))).filter
        (fun e => e.sentKey = e1.sentKey)).length = 0 := by
  obtain ⟨s1, em1, heq1, hiff1, hem1⟩ := sendEvents_other_keys e1.sentKey l1 s0 h1
  have hk1 : e1.sentKey ∉ s1 := fun hmem => hs0 (hiff1.mp hmem)
  obtain ⟨s2, em2, heq2, hiff2, hem2⟩ :=
    sendEvents_other_keys e1.sentKey l2 (e1.sentKey :: s1) h2
  have rec1 : sendEvents false (e1 :: l2) (some s1)
      = .ok (some s2, e1 :: em2) := by
    rw [sendEvents_record_pending e1 l2 s1 hk1 hp, heq2]
  have r1eq : sendEvents false (l1 ++ e1 :: l2) (some s0)
      = .ok (some s2, em1 ++ e1 :: em2) := by
    rw [sendEvents_append l1 (e1 :: l2) s0 s1 em1 heq1, rec1]
  have hks2 : e1.sentKey ∈ s2 := hiff2.mpr (List.mem_cons_self _ _)
  obtain ⟨s3, em3, heq3, hiff3, hem3⟩ := sendEvents_other_keys e1.sentKey l3 s2 h3
  have hk3 : e2.sentKey ∈ s3 := by
    rw [hkey]
    exact hiff3.mpr hks2
  obtain ⟨s4, em4, heq4, _, hem4⟩ := sendEvents_other_keys e1.sentKey l4 s3 h4
  have rec2 : sendEvents false (e2 :: l4) (some s3) = .ok (some s4, em4) := by
    rw [sendEvents_skip e2 l4 s3 hk3, heq4]
  have r2eq : sendEvents false (l3 ++ e2 :: l4) (some s2)
      = .ok (some s4, em3 ++ em4) := by
    rw [sendEvents_append l3 (e2 :: l4) s2 s3 em3 heq3, rec2]
  constructor
  · rw [r1eq]
    show ((em1 ++ e1 :: em2).filter (fun e => e.sentKey = e1.sentKey)).length = 1
    rw [List.filter_append, filter_key_eq_nil _ _ hem1]
    simp [filter_key_eq_nil _ _ hem2]
  · rw [r1eq]
    show ((emittedOf (sendEvents false (l3 ++ e2 :: l4) (some s2))).filter
        (fun e => e.sentKey = e1.sentKey)).length = 0
    rw [r2eq]
    show ((em3 ++ em4).filter (fun e => e.sentKey = e1.sentKey)).length = 0
    rw [List.filter_append, filter_key_eq_nil _ _ hem3,
      filter_key_eq_nil _ _ hem4]
    rfl

/-- C5 (witness): the event with identity `(5, 0)` arrives once from a
pending block and once from block hash `77`; it is notified exactly once. -/
theorem sendEvents_pending_then_confirmed_witness :
    ((emittedOf (sendEvents false ([] ++ ⟨5, 0, none, 1, 9, [], []⟩ :: [])
        (some []))).filter
      (fun e => e.sentKey = FilteredEvent.sentKey ⟨5, 0, none, 1, 9, [], []⟩)).length = 1
    ∧ ((emittedOf (sendEvents false ([] ++ ⟨5, 0, some 77, 2, 9, [], []⟩ :: [])
          (sentMapOf (sendEvents false ([] ++ ⟨5, 0, none, 1, 9, [], []⟩ :: [])
            (some []))))).filter
      (fun e => e.sentKey = FilteredEvent.sentKey ⟨5, 0, none, 1, 9, [], []⟩)).length = 0 :=
  sendEvents_pending_then_confirmed ⟨5, 0, none, 1, 9, [], []⟩
    ⟨5, 0, some 77, 2, 9, [], []⟩ [] [] [] [] [] 77 rfl rfl rfl (by simp)
    (by simp) (by simp) (by simp) (by simp)

/-- When every poll reports `transaction hash not found`, the wait loop
exhausts its ticks and ends with that error. -/
theorem txNotFoundLoop_const (statusOf : Nat → Except RpcError TxnStatus)
    (h : ∀ k, statusOf k = .error .txnHashNotFound) :
    ∀ fuel tick, txNotFoundLoop statusOf fuel tick
      = .error .txnHashNotFound := by
  intro fuel
  induction fuel with
  | zero => intro tick; rfl
  | succ n ih =>
    intro tick
    simp [txNotFoundLoop, h tick, ih (tick + 1)]

/-- C6: when the status lookup returns `transaction hash not found` at the
initial check and at every ticker tick of the wait window,
`SubscribeTransactionStatus` returns that error synchronously and the
engine state is unchanged: no subscription id is generated (the id counter
does not move) and nothing is stored in the registry. -/
theorem subscribeTransactionStatus_not_found (fuel : Nat)
    (statusOf : Nat → Except RpcError TxnStatus) (w : Nat) (st : EngineState)
    (h : ∀ k, statusOf k = .error .txnHashNotFound) :
    SubscribeTransactionStatus fuel statusOf (some w) st
      = (.error .txnHashNotFound, st) := by
  simp [SubscribeTransactionStatus, h 0, txNotFoundLoop_const statusOf h fuel 1]

/-- C6 (witness): a three-tick window over a feeder that never finds the
hash: the subscribe call fails with the not-found error and the engine
state (registry and id counter) is exactly what it was. -/
theorem subscribeTransactionStatus_not_found_witness :
    SubscribeTransactionStatus 3 (fun _ => .error .txnHashNotFound) (some 0)
      ⟨[], [], [], 0⟩ = (.error .txnHashNotFound, ⟨[], [], [], 0⟩) :=
  subscribeTransactionStatus_not_found 3 _ 0 _ (fun _ => rfl)

/-- One `MetricsReporterMiddleware` layer increments the reporter's request
count exactly once on top of whatever its downstream handler did, and
passes the downstream result through unchanged. -/
theorem metricsMiddleware_count (next : RequestHandler) (req : Request)
    (r : Reporter) :
    (MetricsReporterMiddleware req next r).2.count = (next req r).2.count + 1
    ∧ (MetricsReporterMiddleware req next r).1 = (next req r).1 := by
  rcases hres : next req r with ⟨⟨resp, err⟩, r1⟩
  rcases resp with _ | respV
  · simp [MetricsReporterMiddleware, hres]
  · rcases hE : respV.error with _ | eobj
    · simp [MetricsReporterMiddleware, hres, hE]
    · simp [MetricsReporterMiddleware, hres, hE]

/-- C7: the metrics middleware calls `ReportRequest` exactly once per
attempted call: with a terminal dispatcher that does not touch the request
count, a server with one metrics middleware leaves the count at one more
than it was, and a server with two chained metrics middlewares reporting to
the same reporter leaves it at exactly two more. -/
theorem metricsMiddleware_reportRequest_counts (terminal : RequestHandler)
    (req : Request) (r : Reporter)
    (hterm : ∀ q ρ, (terminal q ρ).2.count = ρ.count) :
    (((newServer terminal).withRequestMiddleware
        MetricsReporterMiddleware).effectiveHandler req r).2.count
      = r.count + 1
    ∧ (((newServer terminal).withRequestMiddleware MetricsReporterMiddleware
          |>.withRequestMiddleware MetricsReporterMiddleware
          |>.effectiveHandler) req r).2.count = r.count + 2 := by
  constructor
  · show (MetricsReporterMiddleware req terminal r).2.count = r.count + 1
    rw [(metricsMiddleware_count terminal req r).1, hterm req r]
  · show (MetricsReporterMiddleware req
        (fun q ρ => MetricsReporterMiddleware q terminal ρ) r).2.count
      = r.count + 2
    rw [(metricsMiddleware_count _ req r).1]
    show (MetricsReporterMiddleware req terminal r).2.count + 1 = r.count + 2
    rw [(metricsMiddleware_count terminal req r).1, hterm req r]

/-- C7 (witness): the `subtract` request through two chained metrics
middlewares over a fresh reporter yields a request count of exactly 2 (and
one middleware yields exactly 1). -/
theorem metricsMiddleware_reportRequest_counts_witness :
    (((newServer (fun _ ρ => ((some ⟨none⟩, none), ρ))).withRequestMiddleware
        MetricsReporterMiddleware).effectiveHandler ⟨"subtract"⟩
        ⟨"", 0, 0, 0⟩).2.count = 1
    ∧ ((newServer (fun _ ρ => ((some ⟨none⟩, none), ρ))
          |>.withRequestMiddleware MetricsReporterMiddleware
          |>.withRequestMiddleware MetricsReporterMiddleware
          |>.effectiveHandler) ⟨"subtract"⟩ ⟨"", 0, 0, 0⟩).2.count = 2 :=
  metricsMiddleware_reportRequest_counts (fun _ ρ => ((some ⟨none⟩, none), ρ))
    ⟨"subtract"⟩ ⟨"", 0, 0, 0⟩ (fun _ _ => rfl)

/-- C8: middleware composition is LIFO. Registering `M1` then `M2` makes
the handler of record exactly `M2` wrapped around `M1` wrapped around the
terminal dispatcher, so on each request `M2` runs outermost and `M1` wraps
the terminal handler. -/
theorem withRequestMiddleware_lifo (terminal : RequestHandler)
    (m1 m2 : RequestMiddleware) :
    (((newServer terminal).withRequestMiddleware m1).withRequestMiddleware
        m2).handler
      = some (fun req r => m2 req (fun req2 r2 => m1 req2 terminal r2) r) :=
  rfl

/-- C9: the HTTP surface. A GET to `/` answers 200 and a GET elsewhere 404,
in both cases without invoking the server core (the result does not depend
on the handler or the body); any method besides GET and POST answers 405; a
POST hands the core the body capped at `MaxRequestBodySize` (10 MiB), maps
a core error to status 500 while still writing whatever response bytes the
core produced, and the capped body never exceeds the limit. -/
theorem serveHTTP_surface (handleReader : List Nat → Option (List Nat) × Bool)
    (req : HttpRequest) :
    (req.method = "GET" →
      serveHTTP handleReader req
        = ⟨if req.path = "/" then 200 else 404, false, none⟩)
    ∧ (req.method ≠ "GET" → req.method ≠ "POST" →
      serveHTTP handleReader req = ⟨405, false, none⟩)
    ∧ (req.method = "POST" →
      serveHTTP handleReader req
        = ⟨if (handleReader (req.body.take maxRequestBodySize)).2 then 500
             else 200,
           true, (handleReader (req.body.take maxRequestBodySize)).1⟩
      ∧ (req.body.take maxRequestBodySize).length ≤ maxRequestBodySize) := by
  refine ⟨?_, ?_, ?_⟩
  · intro h
    simp [serveHTTP, h]
  · intro h1 h2
    simp [serveHTTP, h1, h2]
  · intro h
    refine ⟨?_, ?_⟩
    · simp [serveHTTP, h]
    · rw [List.length_take]
      exact Nat.min_le_left _ _

/-- C9 (witness): concrete requests through an adapter whose core returns
bytes together with an error: the GET probe answers 200, a PUT answers 405,
and the erroring POST answers 500 while still writing the core's bytes. -/
theorem serveHTTP_surface_witness :
    serveHTTP (fun _ => (some [123], true)) ⟨"GET", "/", []⟩
      = ⟨200, false, none⟩
    ∧ serveHTTP (fun _ => (some [123], true)) ⟨"PUT", "/", []⟩
      = ⟨405, false, none⟩
    ∧ serveHTTP (fun _ => (some [123], true)) ⟨"POST", "/", [1, 2]⟩
      = ⟨500, true, some [123]⟩ := by
  refine ⟨(serveHTTP_surface _ _).1 rfl,
    (serveHTTP_surface _ _).2.1 (by decide) (by decide), ?_⟩
  have h := ((serveHTTP_surface (fun _ => (some [123], true))
    ⟨"POST", "/", [1, 2]⟩).2.2 rfl).1
  simpa using h

/-- C10: `SubscriptionBlockID.IsPending` is constantly false, and the wire
decoder accepts only the exact string `"latest"` or a JSON object carrying
a `block_hash` or `block_number` field; an object with neither field fails
with `cannot unmarshal block id` — so no pending subscription block id can
be constructed from the wire. -/
theorem subscriptionBlockID_wire_forms :
    (∀ b : SubscriptionBlockID, b.isPending = false)
    ∧ (∀ (parseFelt : Json → Except String Felt) (j : Json)
        (r : SubscriptionBlockID),
        SubscriptionBlockID.unmarshalJSON parseFelt j = .ok r →
        j = .str "latest"
        ∨ ∃ fields, j = .obj fields
            ∧ ((getField fields "block_hash").isSome
               ∨ (getField fields "block_number").isSome))
    ∧ (∀ (parseFelt : Json → Except String Felt)
        (fields : List (String × Json)),
        getField fields "block_hash" = none →
        getField fields "block_number" = none →
        SubscriptionBlockID.unmarshalJSON parseFelt (.obj fields)
          = .error "cannot unmarshal block id") := by
  refine ⟨fun _ => rfl, ?_, ?_⟩
  · intro parseFelt j r h
    cases j with
    | null =>
      simp [SubscriptionBlockID.unmarshalJSON, isLatestLiteral, toObject,
        getField] at h
    | bool b =>
      simp [SubscriptionBlockID.unmarshalJSON, isLatestLiteral, toObject] at h
    | num n =>
      simp [SubscriptionBlockID.unmarshalJSON, isLatestLiteral, toObject] at h
    | arr elements =>
      simp [SubscriptionBlockID.unmarshalJSON, isLatestLiteral, toObject] at h
    | str s =>
      by_cases hs : s = "latest"
      · subst hs
        exact Or.inl rfl
      · simp [SubscriptionBlockID.unmarshalJSON, isLatestLiteral, toObject,
          hs] at h
    | obj fields =>
      refine Or.inr ⟨fields, rfl, ?_⟩
      rcases hh : getField fields "block_hash" with _ | hj
      · rcases hn : getField fields "block_number" with _ | nj
        · simp [SubscriptionBlockID.unmarshalJSON, isLatestLiteral, toObject,
            hh, hn] at h
        · exact Or.inr rfl
      · exact Or.inl rfl
  · intro parseFelt fields h1 h2
    simp [SubscriptionBlockID.unmarshalJSON, isLatestLiteral, toObject, h1, h2]

/-- C10 (witness): `IsPending` on a by-number id is false, and an object
with neither `block_hash` nor `block_number` is rejected with the
`cannot unmarshal block id` error. -/
theorem subscriptionBlockID_wire_forms_witness :
    SubscriptionBlockID.isPending ⟨false, none, 4⟩ = false
    ∧ SubscriptionBlockID.unmarshalJSON (fun _ => .error "no felt")
        (.obj [("foo", .null)]) = .error "cannot unmarshal block id" :=
  ⟨subscriptionBlockID_wire_forms.1 ⟨false, none, 4⟩,
   subscriptionBlockID_wire_forms.2.2 (fun _ => .error "no felt")
     [("foo", .null)] rfl rfl⟩

end Juno










